import Mathlib

/-!
Verification development for the halo2 range-proof demo
(`src/main.rs`, `src/range.rs`, `src/proof-range.rs`).

The circuit-composition layer is shallowly embedded: each `synthesize`
run is modelled as the list of layouter events it performs (advice
assignments, gadget invocations, instance bindings), and constraint
satisfaction is a decidable check over that event list together with the
public instance vector.  The external capabilities (Poseidon hash,
less-than gadget internals, the proving engine) are modelled from their
contracts in the specification; the Poseidon digest is an abstract
function parameter `hash : Fp → Fp`.
-/

/-- Order of the Pallas base field (`pallas::Base`), the field `Fp`
used by both circuits. -/
def pallasP : Nat :=
  28948022309329048855892746252171976963363056481941560715954676764349967630337

instance : NeZero pallasP := ⟨by decide⟩

/-- Field elements, as the source's `pallas::Base`. -/
abbrev Fp := ZMod pallasP

/-- Embedding of `pallas::Base::from(u64)`: inject a machine integer
into the field. -/
def Fp.fromU64 (n : Nat) : Fp := (n : Fp)

/-- Modelled from the spec: the less-than gadget constrains `a < b` as
unsigned integers; the contract only pins this behaviour down when both
operands are representable in `N_BITS` bits, which holds for every
operand this repository feeds it. -/
def ltSat (a b : Fp) : Bool := decide (a.val < b.val)

/-- `N_BITS` from `src/range.rs`: bit width parameter of the less-than
gadget. -/
def N_BITS : Nat := 64

/-- Named regions created by `RangeCommitCircuit::synthesize`. -/
inductive RCRegion
  | loadSecret
  | poseidonRegion
  | loadLower
  | loadUpper
deriving DecidableEq

/-- Columns used by `RangeCommitCircuit`: the first Poseidon advice
column (`cfg.poseidon.message[0]`), the Poseidon output cell's column,
the less-than chip's advice column (`cfg.lt.advice`), and the single
instance column. -/
inductive RCCol
  | poseidonMsg0
  | poseidonOut
  | ltAdvice
  | instCol
deriving DecidableEq

/-- A cell: a (region, column, row-within-region) triple.  The simple
floor planner places distinct regions on disjoint row ranges, so
distinct triples are distinct table cells. -/
structure RCCell where
  region : RCRegion
  col : RCCol
  row : Nat
deriving DecidableEq

/-- The cell holding the secret (`cfg.poseidon.message[0]`, row 0 of
region "load secret"). -/
def secretCell : RCCell := ⟨.loadSecret, .poseidonMsg0, 0⟩

/-- The Poseidon output cell holding the commitment. -/
def commitCell : RCCell := ⟨.poseidonRegion, .poseidonOut, 0⟩

/-- The cell holding the lower bound (`cfg.lt.advice`, row 0 of region
"load lower"). -/
def lowerCell : RCCell := ⟨.loadLower, .ltAdvice, 0⟩

/-- The cell holding the upper bound (`cfg.lt.advice`, row 1 of region
"load upper"). -/
def upperCell : RCCell := ⟨.loadUpper, .ltAdvice, 1⟩

/-- One layouter side effect of `RangeCommitCircuit::synthesize`.
Values are `Option Fp`: `none` in key-generation mode, where the engine
does not evaluate witness closures. -/
inductive SynthEvent
  | assignAdvice (cell : RCCell) (val : Option Fp)
  | poseidonHashEv (input output : RCCell) (outVal : Option Fp)
  | constrainInstance (cell : RCCell) (cellVal : Option Fp) (instRow : Nat)
  | assignFromInstance (instRow : Nat) (cell : RCCell) (val : Option Fp)
  | ltAssign (a b : RCCell) (aVal bVal : Option Fp)
deriving DecidableEq

/-- The witness values an event carries. -/
def SynthEvent.values : SynthEvent → List (Option Fp)
  | .assignAdvice _ v => [v]
  | .poseidonHashEv _ _ v => [v]
  | .constrainInstance _ v _ => [v]
  | .assignFromInstance _ _ v => [v]
  | .ltAssign _ _ a b => [a, b]

/-- The shape of an event, forgetting cells and values; used to state
facts about the order of side effects. -/
inductive EvKind
  | assignK
  | poseidonK
  | bindK
  | fromInstK
  | ltK
deriving DecidableEq

/-- Kind of an event. -/
def SynthEvent.kind : SynthEvent → EvKind
  | .assignAdvice _ _ => .assignK
  | .poseidonHashEv _ _ _ => .poseidonK
  | .constrainInstance _ _ _ => .bindK
  | .assignFromInstance _ _ _ => .fromInstK
  | .ltAssign _ _ _ _ => .ltK

/-- Whether an event is a less-than gadget invocation. -/
def SynthEvent.isLt : SynthEvent → Bool
  | .ltAssign _ _ _ _ => true
  | _ => false

/-- Embedding of `RangeCommitCircuit` (`src/range.rs`): an optional
private witness and the two public bounds held in the struct. -/
structure RangeCommitCircuit where
  secret : Option Fp
  lower : Fp
  upper : Fp
deriving DecidableEq

/-- `#[derive(Default)]`: `secret = None`, bounds zero. -/
def RangeCommitCircuit.default : RangeCommitCircuit := ⟨none, 0, 0⟩

/-- `Circuit::without_witnesses`: returns `Self::default()`. -/
def without_witnesses (_c : RangeCommitCircuit) : RangeCommitCircuit :=
  RangeCommitCircuit.default

/-- The two engine modes in which `synthesize` runs. -/
inductive Mode
  | keygen
  | proving
deriving DecidableEq

/-- Synthesis-time failures: the `expect("secret witness missing")`
panic, and an out-of-bounds instance query. -/
inductive SynthError
  | secretWitnessMissing
  | boundsFailure
deriving DecidableEq

/-- List lookup, used for the instance vector and for indexing event
traces. -/
def nth {α : Type} : List α → Nat → Option α
  | [], _ => none
  | x :: _, 0 => some x
  | _ :: xs, n + 1 => nth xs n

/-- Evaluating the secret witness closure
`Value::known(self.secret.expect("secret witness missing"))`.
Modelled from the spec: in key-generation mode the engine discards
witness closures unevaluated, so the assignment is valueless and the
`expect` cannot fire; in proving mode a missing secret is the `expect`
panic. -/
def secretValue : Mode → Option Fp → Except SynthError (Option Fp)
  | .keygen, _ => .ok none
  | .proving, some s => .ok (some s)
  | .proving, none => .error .secretWitnessMissing

/-- Reading an instance value for `assign_advice_from_instance`.
Modelled from the spec: in key-generation mode instance values are
unknown; in proving mode a missing row is a bounds failure. -/
def instRead : Mode → List Fp → Nat → Except SynthError (Option Fp)
  | .keygen, _, _ => .ok none
  | .proving, inst, row =>
    match nth inst row with
    | some v => .ok (some v)
    | none => .error .boundsFailure

/-- Embedding of `RangeCommitCircuit::synthesize` as the list of
layouter events it performs, in source order: load the secret, hash it
with Poseidon and bind the digest to instance row 0, load the bounds
from instance rows 1 and 2, then invoke the less-than gadget twice. -/
def synthesize (hash : Fp → Fp) (mode : Mode) (inst : List Fp)
    (c : RangeCommitCircuit) : Except SynthError (List SynthEvent) :=
  match secretValue mode c.secret with
  | .error e => .error e
  | .ok secretVal =>
    match instRead mode inst 1 with
    | .error e => .error e
    | .ok lowerVal =>
      match instRead mode inst 2 with
      | .error e => .error e
      | .ok upperVal =>
        .ok [
          .assignAdvice secretCell secretVal,
          .poseidonHashEv secretCell commitCell (secretVal.map hash),
          .constrainInstance commitCell (secretVal.map hash) 0,
          .assignFromInstance 1 lowerCell lowerVal,
          .assignFromInstance 2 upperCell upperVal,
          .ltAssign lowerCell secretCell lowerVal secretVal,
          .ltAssign secretCell upperCell secretVal upperVal]

/-- Whether one event's constraint is satisfied against the public
instance vector.  Advice assignments and instance-to-advice copies are
satisfied by construction; the Poseidon gadget's internal constraints
hold by construction because the output value is computed as the
digest; an instance binding requires the cell value to equal the
instance entry; a less-than invocation requires the strict unsigned
comparison of its operands. -/
def constraintOk (inst : List Fp) : SynthEvent → Bool
  | .assignAdvice _ _ => true
  | .poseidonHashEv _ _ _ => true
  | .constrainInstance _ v row =>
    match v, nth inst row with
    | some v, some w => decide (v = w)
    | _, _ => false
  | .assignFromInstance _ _ _ => true
  | .ltAssign _ _ a b =>
    match a, b with
    | some a, some b => ltSat a b
    | _, _ => false

/-- Pipeline-level failures of the demo driver, each of which aborts
the process via `unwrap`. -/
inductive PipelineError
  | keygenFailure
  | witnessFailure
  | proveFailure
deriving DecidableEq

/-- Verification outcome. -/
inductive Outcome
  | accept
  | reject
deriving DecidableEq

/-- Modelled from the spec: the proof pipeline of `src/main.rs`.
Key generation synthesizes the witness-free circuit; `create_proof`
synthesizes the witnessed circuit and fails if the assignment does not
satisfy every gate and copy constraint; by completeness, `verify_proof`
accepts an honestly produced proof checked against the same public
instance vector. -/
def runPipeline (hash : Fp → Fp) (c : RangeCommitCircuit)
    (inst : List Fp) : Except PipelineError Outcome :=
  match synthesize hash .keygen inst (without_witnesses c) with
  | .error _ => .error .keygenFailure
  | .ok _ =>
    match synthesize hash .proving inst c with
    | .error _ => .error .witnessFailure
    | .ok evs =>
      if evs.all (constraintOk inst) then .ok .accept
      else .error .proveFailure

/-- The demo's literal inputs (`src/main.rs`). -/
def mainLower : Nat := 18

/-- The demo's upper bound. -/
def mainUpper : Nat := 65

/-- The demo's secret. -/
def mainSecret : Nat := 27

/-- `let commitment = pallas::Base::from(secret);` — the driver places
the raw secret, not its Poseidon digest, into the commitment slot. -/
def mainCommitment : Fp := Fp.fromU64 mainSecret

/-- The witnessed circuit built in `main`. -/
def mainCircuit : RangeCommitCircuit :=
  ⟨some (Fp.fromU64 mainSecret), Fp.fromU64 mainLower, Fp.fromU64 mainUpper⟩

/-- The public instance vector built in `main`:
`[commitment, lower, upper]`. -/
def mainInstance : List Fp :=
  [mainCommitment, Fp.fromU64 mainLower, Fp.fromU64 mainUpper]

/-- The event trace of a key-generation-mode synthesis: structurally
complete, with every witness value absent. -/
def keygenTrace : List SynthEvent :=
  [.assignAdvice secretCell none,
   .poseidonHashEv secretCell commitCell none,
   .constrainInstance commitCell none 0,
   .assignFromInstance 1 lowerCell none,
   .assignFromInstance 2 upperCell none,
   .ltAssign lowerCell secretCell none none,
   .ltAssign secretCell upperCell none none]

/-- Event kinds in the order `synthesize` actually performs them:
secret assignment, Poseidon digest, instance binding, the two bound
loads, the two less-than invocations. -/
def actualKinds : List EvKind :=
  [.assignK, .poseidonK, .bindK, .fromInstK, .fromInstK, .ltK, .ltK]

/-- Event kinds in the order stated by the specification: secret
assignment, the two bound loads, Poseidon digest, instance binding, the
two less-than invocations. -/
def claimedKinds : List EvKind :=
  [.assignK, .fromInstK, .fromInstK, .poseidonK, .bindK, .ltK, .ltK]

/-- Column-allocation state of the constraint-system builder during
`configure`. -/
structure CSState where
  numInstanceCols : Nat
  numAdvice : Nat
  numFixed : Nat
  numSelectors : Nat
  equalityOnInstance : Bool
deriving DecidableEq

/-- The builder before `configure` runs. -/
def initCS : CSState := ⟨0, 0, 0, 0, false⟩

/-- `meta.instance_column()`. -/
def allocInstanceColumn (cs : CSState) : CSState :=
  { cs with numInstanceCols := cs.numInstanceCols + 1 }

/-- `meta.enable_equality(instance)`. -/
def enableEqualityInstance (cs : CSState) : CSState :=
  { cs with equalityOnInstance := true }

/-- Modelled from the spec: `PoseidonChip::configure` allocates two
advice columns, one fixed column and one selector (source comment in
`src/range.rs`), and no instance column. -/
def poseidonChipConfigure (cs : CSState) : CSState :=
  { cs with
    numAdvice := cs.numAdvice + 2
    numFixed := cs.numFixed + 1
    numSelectors := cs.numSelectors + 1 }

/-- Modelled from the spec: `LtChip::configure` uses one advice column
(source comment in `src/range.rs`), and no instance column. -/
def ltChipConfigure (cs : CSState) : CSState :=
  { cs with numAdvice := cs.numAdvice + 1 }

/-- Embedding of `RangeCommitCircuit::configure`: the builder state
after allocating the instance column, enabling equality on it, and
configuring the Poseidon and less-than chips, in source order. -/
def configureCS : CSState :=
  ltChipConfigure (poseidonChipConfigure
    (enableEqualityInstance (allocInstanceColumn initCS)))

/-!
Embedding of the `InRangeCircuit` demo variant (`src/proof-range.rs`).
That file defines no custom gate at all (`create_gate` is never
called; the allocated selector `s_gate` is never enabled), so the only
constraints are the Poseidon gadget's internal ones, the instance
binding of the digest, and the single `copy_advice` of the flag.
-/

/-- Named regions created by `InRangeChip::assign`. -/
inductive PRegion
  | loadNumber
  | loadLowerBound
  | loadUpperBound
  | dummyFlag
  | hashNumber
  | exposeFlag
deriving DecidableEq

/-- Columns of `InRangeConfig`: the three advice columns and the
instance column; `poseidonOutP` stands for the column of the Poseidon
gadget's output cell inside its own region. -/
inductive PCol
  | advice0
  | advice1
  | advice2
  | instColP
  | poseidonOutP
deriving DecidableEq

/-- A cell of the `InRangeCircuit` table. -/
structure PCell where
  region : PRegion
  col : PCol
  row : Nat
deriving DecidableEq

/-- The cell holding `number` (`advice[0]`, row 0). -/
def numberCellP : PCell := ⟨.loadNumber, .advice0, 0⟩

/-- The cell holding `lower` (`advice[1]`, row 0). -/
def lowerCellP : PCell := ⟨.loadLowerBound, .advice1, 0⟩

/-- The cell holding `upper` (`advice[1]`, row 1). -/
def upperCellP : PCell := ⟨.loadUpperBound, .advice1, 1⟩

/-- The cell holding the always-one flag (`advice[2]`, row 0). -/
def flagCellP : PCell := ⟨.dummyFlag, .advice2, 0⟩

/-- The cell the flag is copied to (`advice[2]`, row 1 of region
"expose flag"). -/
def flagCopyCellP : PCell := ⟨.exposeFlag, .advice2, 1⟩

/-- The Poseidon output cell holding the digest of `number`. -/
def commitCellP : PCell := ⟨.hashNumber, .poseidonOutP, 0⟩

/-- One layouter side effect of `InRangeChip::assign`.  All values are
known here: the claims about this variant concern `MockProver` runs
with concrete witnesses. -/
inductive PEvent
  | assignAdvice (cell : PCell) (val : Fp)
  | poseidonHashEv (input output : PCell) (outVal : Fp)
  | constrainInstance (cell : PCell) (cellVal : Fp) (instRow : Nat)
  | copyAdvice (src dst : PCell) (val : Fp)
deriving DecidableEq

/-- Embedding of `InRangeChip::assign` as its event list, in source
order: load `number`, `lower`, `upper`, assign the constant flag
`F::ONE`, hash `number` with Poseidon, bind the digest to instance
row 0, and copy the flag to a second cell. -/
def InRangeChip.assign (hash : Fp → Fp) (number lower upper : Fp) :
    List PEvent :=
  [.assignAdvice numberCellP number,
   .assignAdvice lowerCellP lower,
   .assignAdvice upperCellP upper,
   .assignAdvice flagCellP 1,
   .poseidonHashEv numberCellP commitCellP (hash number),
   .constrainInstance commitCellP (hash number) 0,
   .copyAdvice flagCellP flagCopyCellP 1]

/-- Whether an event is a constraint that mentions the given cell.
Plain advice assignments constrain nothing; the Poseidon gadget's
internal gates mention its input and output cells; an instance binding
and a copy constraint mention the cells they relate. -/
def constraintMentions (c : PCell) : PEvent → Bool
  | .assignAdvice _ _ => false
  | .poseidonHashEv a b _ => decide (a = c) || decide (b = c)
  | .constrainInstance a _ _ => decide (a = c)
  | .copyAdvice a b _ => decide (a = c) || decide (b = c)

/-- Whether one event's constraint is satisfied against the public
instance vector.  The digest value is computed by construction, so the
Poseidon gadget's internal constraints hold; `copy_advice` assigns the
copied value, so the copy constraint holds; the instance binding
compares the cell value with the instance entry. -/
def constraintOkP (inst : List Fp) : PEvent → Bool
  | .assignAdvice _ _ => true
  | .poseidonHashEv _ _ _ => true
  | .constrainInstance _ v row =>
    match nth inst row with
    | some w => decide (v = w)
    | none => false
  | .copyAdvice _ _ _ => true

/-- Modelled from the spec: `MockProver::run(...).verify()` accepts
exactly when every gate and copy constraint of the synthesized
assignment is satisfied against the provided public inputs.  The
`InRangeCircuit` defines no custom gate, so the checked constraints
are exactly those recorded in the event trace. -/
def mockAccepts (hash : Fp → Fp) (number lower upper : Fp)
    (inst : List Fp) : Bool :=
  (InRangeChip.assign hash number lower upper).all (constraintOkP inst)

/-- Gates created by `InRangeChip::configure`: the file never calls
`create_gate`, so the list is empty and the allocated selector
`s_gate` is never enabled. -/
def inRangeGates : List (List PCell) := []

/-- The proving-mode event trace of the demo circuit, as a function of
the abstract Poseidon digest. -/
def mainProvingTrace (hash : Fp → Fp) : List SynthEvent :=
  [.assignAdvice secretCell (some (Fp.fromU64 27)),
   .poseidonHashEv secretCell commitCell (some (hash (Fp.fromU64 27))),
   .constrainInstance commitCell (some (hash (Fp.fromU64 27))) 0,
   .assignFromInstance 1 lowerCell (some (Fp.fromU64 18)),
   .assignFromInstance 2 upperCell (some (Fp.fromU64 65)),
   .ltAssign lowerCell secretCell (some (Fp.fromU64 18))
     (some (Fp.fromU64 27)),
   .ltAssign secretCell upperCell (some (Fp.fromU64 27))
     (some (Fp.fromU64 65))]

/-!
Helper lemmas.
-/

/-- Injecting a machine integer below the field order does not reduce
it. -/
theorem val_fromU64 (n : Nat) (h : n < pallasP) : (Fp.fromU64 n).val = n := by
  simpa [Fp.fromU64] using ZMod.val_cast_of_lt h

/-- The less-than gadget's check on injected machine integers is the
integer comparison. -/
theorem ltSat_fromU64 (a b : Nat) (ha : a < pallasP) (hb : b < pallasP) :
    ltSat (Fp.fromU64 a) (Fp.fromU64 b) = decide (a < b) := by
  simp [ltSat, val_fromU64 a ha, val_fromU64 b hb]

/-- The demo's lower bound is below its secret. -/
theorem ltSat_lower_secret : ltSat (Fp.fromU64 18) (Fp.fromU64 27) = true := by
  rw [ltSat_fromU64 18 27 (by decide) (by decide)]
  decide

/-- The demo's secret is below its upper bound. -/
theorem ltSat_secret_upper : ltSat (Fp.fromU64 27) (Fp.fromU64 65) = true := by
  rw [ltSat_fromU64 27 65 (by decide) (by decide)]
  decide

/-- The proving-mode trace of the demo run. -/
theorem synthesize_main (hash : Fp → Fp) :
    synthesize hash .proving mainInstance mainCircuit =
      .ok (mainProvingTrace hash) := rfl

/-- Checking the demo trace's constraints against the demo instance
vector comes down to whether the digest of the secret equals the raw
secret the driver placed in instance slot 0. -/
theorem constraints_main (hash : Fp → Fp) :
    (mainProvingTrace hash).all (constraintOk mainInstance) =
      decide (hash (Fp.fromU64 27) = Fp.fromU64 27) := by
  simp [mainProvingTrace, constraintOk, mainInstance, mainCommitment,
    mainSecret, mainLower, mainUpper, nth, ltSat_lower_secret,
    ltSat_secret_upper]

/-- The demo pipeline run, reduced: it accepts when the digest of the
secret equals the raw secret in instance slot 0, and aborts in
`create_proof` otherwise. -/
theorem runPipeline_main (hash : Fp → Fp) :
    runPipeline hash mainCircuit mainInstance =
      if hash (Fp.fromU64 27) = Fp.fromU64 27 then .ok .accept
      else .error .proveFailure := by
  have h1 : runPipeline hash mainCircuit mainInstance =
      if (mainProvingTrace hash).all (constraintOk mainInstance) = true
      then .ok .accept else .error .proveFailure := rfl
  rw [h1, constraints_main hash]
  by_cases hc : hash (Fp.fromU64 27) = Fp.fromU64 27 <;> simp [hc]

/-!
Claim theorems.
-/

/-- C1: the demo pipeline with `lower=18, upper=65, secret=27` can only
accept if the Poseidon digest of 27 equals 27 itself, because
`src/main.rs` places the raw secret `pallas::Base::from(27)` — not its
digest — into instance slot 0, while the circuit copy-constrains that
slot to the digest.  For the real (non-identity) Poseidon this makes
the constraint system unsatisfiable, so `create_proof` aborts instead
of the run accepting with the digest in slot 0. -/
theorem C1_demo_accepts_iff_digest_fixes_secret :
    ∀ hash : Fp → Fp,
      (runPipeline hash mainCircuit mainInstance = .ok .accept ↔
        hash (Fp.fromU64 27) = Fp.fromU64 27) ∧
      nth mainInstance 0 = some (Fp.fromU64 27) := by
  intro hash
  refine ⟨?_, rfl⟩
  rw [runPipeline_main hash]
  by_cases hc : hash (Fp.fromU64 27) = Fp.fromU64 27 <;> simp [hc]

/-- C2: the public instance vector built in `src/main.rs` carries the
raw secret: slot 0 is `pallas::Base::from(secret)`, exactly the value
wrapped in the circuit's private witness, not a one-way digest of
it. -/
theorem C2_instance_slot0_is_raw_secret :
    nth mainInstance 0 = some (Fp.fromU64 mainSecret) ∧
      mainCircuit.secret = some (Fp.fromU64 mainSecret) ∧
      mainCommitment = Fp.fromU64 mainSecret :=
  ⟨rfl, rfl, rfl⟩

/-- C3: key generation synthesizes the `without_witnesses` circuit,
whose secret is the explicit `None` marker; synthesis succeeds
structurally, producing — for every digest function, instance vector
and starting circuit — the same fully-shaped trace in which every
witness value is absent, so keys can be derived without touching a real
secret. -/
theorem C3_keygen_mode_structural_success :
    ∀ (hash : Fp → Fp) (inst : List Fp) (c : RangeCommitCircuit),
      (without_witnesses c).secret = none ∧
      synthesize hash .keygen inst (without_witnesses c) = .ok keygenTrace ∧
      keygenTrace.all (fun e => e.values.all Option.isNone) = true := by
  intro hash inst c
  exact ⟨rfl, rfl, by decide⟩

/-- C4: in proving mode the less-than gadget is invoked exactly twice —
first on `(lower, secret)`, then on `(secret, upper)` — and each
invocation's constraint is the strict unsigned comparison of its
operand values, with the gadget's bit-width parameter `N_BITS = 64`. -/
theorem C4_lt_gadget_invoked_twice_strict :
    ∀ (hash : Fp → Fp) (s lo hi c0 l u : Fp),
      N_BITS = 64 ∧
      (synthesize hash .proving [c0, l, u] ⟨some s, lo, hi⟩).map
          (fun evs => evs.filter SynthEvent.isLt) =
        .ok [.ltAssign lowerCell secretCell (some l) (some s),
             .ltAssign secretCell upperCell (some s) (some u)] ∧
      constraintOk [c0, l, u]
          (.ltAssign lowerCell secretCell (some l) (some s)) =
        decide (l.val < s.val) ∧
      constraintOk [c0, l, u]
          (.ltAssign secretCell upperCell (some s) (some u)) =
        decide (s.val < u.val) := by
  intro hash s lo hi c0 l u
  exact ⟨rfl, rfl, rfl, rfl⟩

/-- C5: `configure` allocates exactly one instance column; the demo's
instance vector has exactly the three slots `[commitment, lower,
upper]`; and in every proving-mode synthesis the commitment cell is
copy-constrained to instance row 0 while the lower and upper bounds are
read from instance rows 1 and 2. -/
theorem C5_instance_layout :
    configureCS.numInstanceCols = 1 ∧
      mainInstance = [mainCommitment, Fp.fromU64 mainLower,
        Fp.fromU64 mainUpper] ∧
      mainInstance.length = 3 ∧
      ∀ (hash : Fp → Fp) (s lo hi c0 l u : Fp),
        (synthesize hash .proving [c0, l, u] ⟨some s, lo, hi⟩).map
            (fun evs => nth evs 2) =
          .ok (some (.constrainInstance commitCell (some (hash s)) 0)) ∧
        (synthesize hash .proving [c0, l, u] ⟨some s, lo, hi⟩).map
            (fun evs => nth evs 3) =
          .ok (some (.assignFromInstance 1 lowerCell (some l))) ∧
        (synthesize hash .proving [c0, l, u] ⟨some s, lo, hi⟩).map
            (fun evs => nth evs 4) =
          .ok (some (.assignFromInstance 2 upperCell (some u))) := by
  refine ⟨rfl, rfl, rfl, ?_⟩
  intro hash s lo hi c0 l u
  exact ⟨rfl, rfl, rfl⟩

/-- C6: the range gadget's bound operands are produced by
instance-to-advice copies from instance rows 1 and 2 — their values are
the instance entries — and the synthesis result does not depend on the
`lower`/`upper` fields of the circuit struct, so the bounds are not
re-entered as free witnesses. -/
theorem C6_bounds_loaded_from_instance :
    ∀ (hash : Fp → Fp) (s lo hi lo' hi' c0 l u : Fp),
      synthesize hash .proving [c0, l, u] ⟨some s, lo, hi⟩ =
        synthesize hash .proving [c0, l, u] ⟨some s, lo', hi'⟩ ∧
      (synthesize hash .proving [c0, l, u] ⟨some s, lo, hi⟩).map
          (fun evs => nth evs 3) =
        .ok (some (.assignFromInstance 1 lowerCell (some l))) ∧
      (synthesize hash .proving [c0, l, u] ⟨some s, lo, hi⟩).map
          (fun evs => nth evs 4) =
        .ok (some (.assignFromInstance 2 upperCell (some u))) := by
  intro hash s lo hi lo' hi' c0 l u
  exact ⟨rfl, rfl, rfl⟩

/-- C7: entering proving mode with the secret absent fails fast with
the `expect("secret witness missing")` panic: synthesis returns the
usage error, the pipeline aborts before `create_proof`, and the run
produces no verification outcome at all — distinct from a proof being
rejected. -/
theorem C7_missing_secret_fails_fast :
    ∀ (hash : Fp → Fp) (inst : List Fp) (lo hi : Fp),
      synthesize hash .proving inst ⟨none, lo, hi⟩ =
        .error .secretWitnessMissing ∧
      runPipeline hash ⟨none, lo, hi⟩ inst = .error .witnessFailure ∧
      (runPipeline hash ⟨none, lo, hi⟩ inst).isOk = false := by
  intro hash inst lo hi
  exact ⟨rfl, rfl, rfl⟩

/-- C8 counterexample: on the demo's own inputs (secret 27, bounds 18
and 65, with a concrete stand-in digest function) the proving-mode
side-effect order is secret assignment, Poseidon digest, instance
binding, then the two bound loads, then the two range-gadget calls —
not the spec's order, which puts the bound loads before the commitment
gadget. -/
theorem C8_counterexample_commitment_precedes_bounds :
    (synthesize (fun x => x) .proving mainInstance mainCircuit).map
        (fun evs => evs.map SynthEvent.kind) = .ok actualKinds ∧
      decide (actualKinds = claimedKinds) = false :=
  ⟨rfl, by decide⟩

/-- C8 (amended): in proving mode the witness assigner first assigns
the secret, then invokes the commitment gadget and binds its output to
instance slot 0, then assigns the lower and upper bounds from the
instance vector, and finally invokes the range gadget twice. -/
theorem C8_actual_side_effect_order :
    ∀ (hash : Fp → Fp) (s lo hi c0 l u : Fp),
      (synthesize hash .proving [c0, l, u] ⟨some s, lo, hi⟩).map
          (fun evs => evs.map SynthEvent.kind) = .ok actualKinds := by
  intro hash s lo hi c0 l u
  rfl

/-- C9: in the `InRangeCircuit` variant, the exposed flag cell is
assigned the constant field value 1 for every input; the only
constraints mentioning the flag cell or its exposed copy are the single
copy constraint between the two (both carrying the constant 1); and the
circuit defines no gate at all, so nothing relates the flag to the
range relation. -/
theorem C9_flag_constant_and_unconstrained :
    ∀ (hash : Fp → Fp) (n lo hi : Fp),
      nth (InRangeChip.assign hash n lo hi) 3 =
        some (.assignAdvice flagCellP 1) ∧
      (InRangeChip.assign hash n lo hi).filter
          (constraintMentions flagCellP) =
        [.copyAdvice flagCellP flagCopyCellP 1] ∧
      (InRangeChip.assign hash n lo hi).filter
          (constraintMentions flagCopyCellP) =
        [.copyAdvice flagCellP flagCopyCellP 1] ∧
      inRangeGates = [] := by
  intro hash n lo hi
  exact ⟨rfl, rfl, rfl, rfl⟩

/-- C10: the `InRangeCircuit` variant enforces no range relation: the
lower and upper cells participate in no gate or copy constraint, and
the mock prover accepts exactly when the Poseidon digest of the number
equals instance slot 0 — in particular it accepts `number = 10` against
bounds 18 and 65 even though 10 is outside that interval. -/
theorem C10_no_range_relation_enforced :
    ∀ (hash : Fp → Fp) (n lo hi c0 : Fp),
      (mockAccepts hash n lo hi [c0] = true ↔ hash n = c0) ∧
      (InRangeChip.assign hash n lo hi).filter
          (constraintMentions lowerCellP) = [] ∧
      (InRangeChip.assign hash n lo hi).filter
          (constraintMentions upperCellP) = [] ∧
      mockAccepts hash (Fp.fromU64 10) (Fp.fromU64 18) (Fp.fromU64 65)
          [hash (Fp.fromU64 10)] = true ∧
      ltSat (Fp.fromU64 18) (Fp.fromU64 10) = false := by
  intro hash n lo hi c0
  refine ⟨?_, rfl, rfl, ?_, ?_⟩
  · simp [mockAccepts, InRangeChip.assign, constraintOkP, nth]
  · simp [mockAccepts, InRangeChip.assign, constraintOkP, nth]
  · rw [ltSat_fromU64 18 10 (by decide) (by decide)]
    decide
